import Mathlib

/-!
Verification of the RAG chatbot backend query pipeline.

This file gives a shallow embedding in Lean 4 of the query-time pipeline of
the RAG chatbot backend (src/services/rag_service.py and the services it
composes: conversation.py, embedding.py, llm.py, vector_store.py), and
proves the spec claims about it.

Modelling conventions:
- Python floats (relevance scores, similarity thresholds) are modelled as
  rationals; the code only ever compares and sorts them, never does float
  arithmetic on them, so the order structure is all that matters.
- Python strings are Lean strings; Python slicing by code points is modelled
  on the underlying character list.
- Python dicts used as insertion-ordered maps (seen_files in
  rag_service.process_query) are modelled as association lists with the
  exact CPython semantics: assignment to an existing key replaces the value
  in place, assignment to a fresh key appends.
- list.sort(key=..., reverse=True) is a stable descending sort; it is
  modelled with List.insertionSort, which is stable for a total preorder.
- UUIDs are modelled by a fresh-id counter, datetime.utcnow by a monotone
  clock, both carried in the database state.
- External network services (Gemini embedding, Qdrant client, Gemini chat)
  are oracles supplied as an environment; the repository code around those
  calls is translated faithfully.
-/

namespace RAG

/-- Retrieved chunk: the dict built per search hit in
VectorStoreService.search (vector_store.py). -/
structure RetrievedChunk where
  title : String
  file_path : String
  chunk_text : String
  chunk_index : Nat
  total_chunks : Nat
  relevance_score : ℚ
deriving DecidableEq, Repr

/-- Source citation (src/models/chat.py, class Source). -/
structure Source where
  title : String
  file_path : String
  relevance_score : ℚ
  excerpt : String
deriving DecidableEq, Repr

/-- Python string slicing s[:n] by code points. -/
def strTake (n : Nat) (s : String) : String := String.mk (s.data.take n)

/-- Lookup in an insertion-ordered dict modelled as an association list
(first match; keys are unique by construction). -/
def dictFind (k : String) : List (String × RetrievedChunk) → Option RetrievedChunk
  | [] => none
  | (k2, v) :: rest => if k2 = k then some v else dictFind k rest

/-- Assignment d[k] = v on an insertion-ordered dict: replaces the value in
place if the key is present, appends otherwise (CPython dict semantics). -/
def dictSet (k : String) (v : RetrievedChunk) :
    List (String × RetrievedChunk) → List (String × RetrievedChunk)
  | [] => [(k, v)]
  | (k2, v2) :: rest => if k2 = k then (k, v) :: rest else (k2, v2) :: dictSet k v rest

/-- One iteration of the dedup loop in RAGService.process_query
(rag_service.py lines 95-100): keep only the highest-scoring chunk per
file path, strictly-greater comparison. -/
def seenStep (seen : List (String × RetrievedChunk)) (chunk : RetrievedChunk) :
    List (String × RetrievedChunk) :=
  match dictFind chunk.file_path seen with
  | none => dictSet chunk.file_path chunk seen
  | some prev =>
      if prev.relevance_score < chunk.relevance_score then
        dictSet chunk.file_path chunk seen
      else seen

/-- The seen_files dict after the dedup loop over all retrieved chunks. -/
def buildSeen (chunks : List RetrievedChunk) : List (String × RetrievedChunk) :=
  chunks.foldl seenStep []

/-- Source construction from a surviving chunk (rag_service.py lines
103-111): excerpt is chunk_text truncated to 500 characters. -/
def mkSource (c : RetrievedChunk) : Source :=
  { title := c.title
    file_path := c.file_path
    relevance_score := c.relevance_score
    excerpt := strTake 500 c.chunk_text }

/-- Descending-score order used by sources.sort(key=lambda x:
x.relevance_score, reverse=True). -/
def scoreGE (a b : Source) : Prop := b.relevance_score ≤ a.relevance_score

instance : DecidableRel scoreGE := fun a b =>
  inferInstanceAs (Decidable (b.relevance_score ≤ a.relevance_score))

instance : IsTotal Source scoreGE :=
  ⟨fun a b => (le_total b.relevance_score a.relevance_score).imp id id⟩

instance : IsTrans Source scoreGE :=
  ⟨fun _ _ _ h1 h2 => le_trans h2 h1⟩

/-- Step 7 of RAGService.process_query: dedup by file path keeping the
highest score, build Source objects, sort by relevance score descending
(rag_service.py lines 94-113). -/
def formatSources (chunks : List RetrievedChunk) : List Source :=
  List.insertionSort scoreGE ((buildSeen chunks).map (fun p => mkSource p.2))

/-- The fixed refusal string of RAGService.process_query (rag_service.py
lines 78-82; the three adjacent Python string literals concatenated). -/
def refusalMessage : String :=
  "I don\x27t have information about that in the documentation. I can only answer questions about Physical AI, robotics, ROS2, and related topics covered in this book."

/-- Settings relevant to the query pipeline (src/config.py), with the
defaults declared there. max_conversation_context is a Python int, hence
modelled as Int. -/
structure Settings where
  top_k_results : Nat := 5
  similarity_threshold : ℚ := 0.6
  max_conversation_context : Int := 6
deriving DecidableEq, Repr

/-- Summary entry of one retrieved chunk inside the assistant message
context_used payload (rag_service.py lines 125-132). -/
structure ChunkMeta where
  title : String
  file_path : String
  relevance_score : ℚ
deriving DecidableEq, Repr

/-- The context_used payload saved with the assistant message
(rag_service.py lines 124-134). -/
structure ContextUsed where
  chunks : List ChunkMeta
  retrieval_count : Nat
deriving DecidableEq, Repr

/-- The context_metadata dict built in RAGService.process_query step 9. -/
def contextSummary (chunks : List RetrievedChunk) : ContextUsed :=
  { chunks := chunks.map (fun c => ChunkMeta.mk c.title c.file_path c.relevance_score)
    retrieval_count := chunks.length }

/-- Row of the chat_messages table (conversation.py, ChatMessageModel).
message_id models the uuid4 default, created_at the utcnow default. -/
structure MsgRow where
  message_id : Nat
  session_id : Nat
  role : String
  content : String
  selected_text : Option String
  context_used : Option ContextUsed
  created_at : Nat
deriving DecidableEq, Repr

/-- Row of the chat_sessions table (conversation.py, ChatSessionModel). -/
structure SessionRow where
  session_id : Nat
  created_at : Nat
  last_activity_at : Nat
deriving DecidableEq, Repr

/-- The Postgres database state: the two tables plus the fresh-id counter
(modelling uuid4) and a monotone clock (modelling datetime.utcnow). -/
structure Db where
  sessions : List SessionRow
  messages : List MsgRow
  nextId : Nat
  clock : Nat
deriving DecidableEq, Repr

/-- Errors a message write can surface. checkViolation and fkViolation
model the database IntegrityError raised when a declarative
CheckConstraint or the session foreign key of ChatMessageModel
(conversation.py lines 55, 64-66) rejects the commit. validationError is
the ValidationError of the spec error taxonomy, raised only by explicit
pre-write validation in the storage layer; conversation.py contains no
such validation, so the translated code below never produces it. -/
inductive DbError
  | checkViolation (constraint : String)
  | fkViolation
  | validationError
deriving DecidableEq, Repr

/-- ConversationService.save_message (conversation.py lines 142-179): adds
a ChatMessageModel and commits. The service body performs no validation of
its own; the commit enforces the declared constraints chk_valid_role,
chk_content_length and the session_id foreign key, and on violation the
transaction aborts with nothing written. -/
def save_message (db : Db) (session_id : Nat) (role : String) (content : String)
    (selected_text : Option String) (context_used : Option ContextUsed) :
    Except DbError (Db × Nat) :=
  if ¬ (role = "user" ∨ role = "assistant") then
    .error (.checkViolation "chk_valid_role")
  else if ¬ (1 ≤ content.length ∧ content.length ≤ 10000) then
    .error (.checkViolation "chk_content_length")
  else if ¬ (∃ s ∈ db.sessions, s.session_id = session_id) then
    .error .fkViolation
  else
    let row : MsgRow :=
      { message_id := db.nextId
        session_id := session_id
        role := role
        content := content
        selected_text := selected_text
        context_used := context_used
        created_at := db.clock }
    .ok ({ db with messages := db.messages ++ [row]
                   nextId := db.nextId + 1
                   clock := db.clock + 1 }, db.nextId)

/-- Modelled from the spec: the saveMessage contract of the Conversation
Store (spec section 4.3), which requires explicit validation in the write
path rejecting bad role or content length with a ValidationError before
any write; valid calls behave as the translated save_message. The
ConversationService.save_message of the repository has no such validation, so
this definition exists only to be compared against it. -/
def save_message_specContract (db : Db) (session_id : Nat) (role : String) (content : String)
    (selected_text : Option String) (context_used : Option ContextUsed) :
    Except DbError (Db × Nat) :=
  if ¬ (role = "user" ∨ role = "assistant") then .error .validationError
  else if ¬ (1 ≤ content.length ∧ content.length ≤ 10000) then .error .validationError
  else save_message db session_id role content selected_text context_used

/-- ConversationService.create_session (conversation.py lines 102-119):
inserts a fresh ChatSessionModel row and returns its id. -/
def create_session (db : Db) : Db × Nat :=
  ({ db with
      sessions := db.sessions ++
        [{ session_id := db.nextId, created_at := db.clock, last_activity_at := db.clock }]
      nextId := db.nextId + 1
      clock := db.clock + 1 }, db.nextId)

/-- Ascending creation-time order of ORDER BY created_at ASC. -/
def createdLE (a b : MsgRow) : Prop := a.created_at ≤ b.created_at

instance : DecidableRel createdLE := fun a b =>
  inferInstanceAs (Decidable (a.created_at ≤ b.created_at))

instance : IsTotal MsgRow createdLE :=
  ⟨fun a b => Nat.le_total a.created_at b.created_at⟩

instance : IsTrans MsgRow createdLE :=
  ⟨fun _ _ _ h1 h2 => Nat.le_trans h1 h2⟩

/-- ConversationService.get_conversation_history (conversation.py lines
181-214): SELECT messages of the session ORDER BY created_at ASC. Total:
an unknown session simply selects zero rows. -/
def get_conversation_history (db : Db) (session_id : Nat) : List MsgRow :=
  List.insertionSort createdLE
    (db.messages.filter (fun m => m.session_id == session_id))

/-- A Gemini Content turn as built in llm.py (role plus a single text
part). -/
structure GeminiContent where
  role : String
  text : String
deriving DecidableEq, Repr

/-- Start index of the Python slice xs[i:] for a possibly negative i. -/
def pySliceStart (i : Int) (len : Nat) : Nat :=
  if i < 0 then ((len : Int) + i).toNat else min i.toNat len

/-- Python slice xs[i:] for a possibly negative i. -/
def pyDropSlice (i : Int) (xs : List α) : List α :=
  xs.drop (pySliceStart i xs.length)

/-- The final user turn appended by LLMService._build_conversation_history
(llm.py lines 91-108): the selected text, when present, is prepended to
the current query as quoted context. -/
def currentTurn (current_query : String) (selected_text : Option String) : GeminiContent :=
  match selected_text with
  | some s =>
      { role := "user"
        text := "Selected text from page: \"" ++ s ++ "\"\n\nQuestion: " ++ current_query }
  | none => { role := "user", text := current_query }

/-- LLMService._build_conversation_history (llm.py lines 64-110): prior
turns are conversation_messages[-settings.max_conversation_context:],
each mapped verbatim to a Content with the stored role and content, then
the current query is appended as the final user turn. -/
def build_conversation_history (cfg : Settings) (conversation_messages : List MsgRow)
    (current_query : String) (selected_text : Option String) : List GeminiContent :=
  (pyDropSlice (-cfg.max_conversation_context) conversation_messages).map
    (fun m => GeminiContent.mk m.role m.content)
    ++ [currentTurn current_query selected_text]

/-- The contents argument of a Gemini embed_content call: a single string
or a list of strings. -/
inductive EmbedContents
  | single (text : String)
  | batch (texts : List String)
deriving DecidableEq, Repr

/-- An embed_content request as assembled in embedding.py: model name,
contents and the task_type tag of the EmbedContentConfig. -/
structure EmbedRequest where
  model : String
  contents : EmbedContents
  task_type : String
deriving DecidableEq, Repr

/-- The request built by EmbeddingService.generate_embedding (embedding.py
lines 45-54): single text, task_type RETRIEVAL_QUERY. -/
def generate_embedding_request (model : String) (text : String) : EmbedRequest :=
  { model := model, contents := .single text, task_type := "RETRIEVAL_QUERY" }

/-- The request built by EmbeddingService.generate_embeddings_batch
(embedding.py lines 80-87): list of texts, task_type RETRIEVAL_DOCUMENT. -/
def generate_embeddings_batch_request (model : String) (texts : List String) : EmbedRequest :=
  { model := model, contents := .batch texts, task_type := "RETRIEVAL_DOCUMENT" }

/-- A Qdrant point payload as a record of optional fields: each expected
field may be absent (payload.get with a default in vector_store.py). -/
structure Payload where
  title : Option String
  file_path : Option String
  chunk_text : Option String
  chunk_index : Option Nat
  total_chunks : Option Nat
deriving DecidableEq, Repr

/-- A scored search hit returned by the Qdrant client. -/
structure ScoredPoint where
  payload : Payload
  score : ℚ
deriving DecidableEq, Repr

/-- The chunk dict built per hit in VectorStoreService.search
(vector_store.py lines 110-120): payload.get with the defaults declared
there. -/
def pointToChunk (r : ScoredPoint) : RetrievedChunk :=
  { title := r.payload.title.getD "Untitled"
    file_path := r.payload.file_path.getD ""
    chunk_text := r.payload.chunk_text.getD ""
    chunk_index := r.payload.chunk_index.getD 0
    total_chunks := r.payload.total_chunks.getD 1
    relevance_score := r.score }

/-- VectorStoreService.search result assembly (vector_store.py lines
102-123) applied to the hits the Qdrant client returned. -/
def vectorSearch (results : List ScoredPoint) : List RetrievedChunk :=
  results.map pointToChunk

/-- Pipeline error taxonomy: one constructor per external dependency plus
the store errors. -/
inductive PipelineError
  | embeddingError
  | vectorStoreError
  | generationError
  | storeError (e : DbError)
deriving DecidableEq, Repr

/-- Oracles for the external network services consumed by the pipeline:
the Gemini embedding call, the raw Qdrant client search (taking the query
vector, top_k limit and score threshold), and the Gemini chat generation.
none models an upstream failure that the service re-raises. -/
structure Env where
  embed : String → Option (List ℚ)
  qdrant_search : List ℚ → Nat → ℚ → Option (List ScoredPoint)
  generate : String → List RetrievedChunk → List MsgRow → Option String → Option String

/-- The observable result of one process_query run: the returned value or
error, the database afterwards, the chunks retrieval produced, how many
times the Answer Generator was invoked, and whether each of the two
message saves committed. -/
structure RunResult where
  outcome : Except PipelineError (String × List Source × Nat)
  db : Db
  retrieved : List RetrievedChunk
  llmCalls : Nat
  savedUser : Bool
  savedAssistant : Bool

/-- Steps 8-9 of RAGService.process_query (rag_service.py lines 115-144):
save the user message, then the assistant message with the context
summary; a failing save aborts the query and is not compensated. -/
def persistTurn (db : Db) (sid : Nat) (query : String) (selected_text : Option String)
    (response : String) (sources : List Source) (retrieved : List RetrievedChunk)
    (calls : Nat) : RunResult :=
  match save_message db sid "user" query selected_text none with
  | .error e =>
      { outcome := .error (.storeError e), db := db, retrieved := retrieved
        llmCalls := calls, savedUser := false, savedAssistant := false }
  | .ok (db2, _) =>
      match save_message db2 sid "assistant" response none (some (contextSummary retrieved)) with
      | .error e =>
          { outcome := .error (.storeError e), db := db2, retrieved := retrieved
            llmCalls := calls, savedUser := true, savedAssistant := false }
      | .ok (db3, _) =>
          { outcome := .ok (response, sources, sid), db := db3, retrieved := retrieved
            llmCalls := calls, savedUser := true, savedAssistant := true }

/-- Step 1 of RAGService.process_query (rag_service.py lines 51-56): a
supplied session id is used verbatim with no store access; otherwise a new
session is created. -/
def resolveSession (db : Db) : Option Nat → Db × Nat
  | none => create_session db
  | some sid => (db, sid)

/-- RAGService.process_query (rag_service.py lines 30-148): session
resolution, history load, query embedding, vector search, the
empty-retrieval refusal branch or generation plus source assembly, then
persistence of the user and assistant messages. -/
def process_query (cfg : Settings) (env : Env) (db0 : Db) (query : String)
    (session_id : Option Nat) (selected_text : Option String) : RunResult :=
  let step1 : Db × Nat := resolveSession db0 session_id
  let db1 := step1.1
  let sid := step1.2
  let conversation_history := get_conversation_history db1 sid
  match env.embed query with
  | none =>
      { outcome := .error .embeddingError, db := db1, retrieved := []
        llmCalls := 0, savedUser := false, savedAssistant := false }
  | some query_embedding =>
      match env.qdrant_search query_embedding cfg.top_k_results cfg.similarity_threshold with
      | none =>
          { outcome := .error .vectorStoreError, db := db1, retrieved := []
            llmCalls := 0, savedUser := false, savedAssistant := false }
      | some points =>
          let retrieved_chunks := vectorSearch points
          if retrieved_chunks.isEmpty then
            persistTurn db1 sid query selected_text refusalMessage [] retrieved_chunks 0
          else
            match env.generate query retrieved_chunks conversation_history selected_text with
            | none =>
                { outcome := .error .generationError, db := db1
                  retrieved := retrieved_chunks, llmCalls := 1
                  savedUser := false, savedAssistant := false }
            | some response =>
                persistTurn db1 sid query selected_text response
                  (formatSources retrieved_chunks) retrieved_chunks 1

lemma dictFind_eq_none {k : String} {l : List (String × RetrievedChunk)}
    (h : dictFind k l = none) : k ∉ l.map Prod.fst := by
  induction l with
  | nil => simp
  | cons p rest ih =>
      simp only [dictFind] at h
      by_cases hk : p.1 = k
      · simp [hk] at h
      · simp only [List.map_cons, List.mem_cons]
        rintro (rfl | hmem)
        · exact hk rfl
        · exact ih (by simpa [hk] using h) hmem

lemma dictSet_of_find_none {k : String} {v : RetrievedChunk}
    {l : List (String × RetrievedChunk)} (h : dictFind k l = none) :
    dictSet k v l = l ++ [(k, v)] := by
  induction l with
  | nil => simp [dictSet]
  | cons p rest ih =>
      simp only [dictFind] at h
      by_cases hk : p.1 = k
      · simp [hk] at h
      · simp only [dictSet, hk, if_false]
        rw [ih (by simpa [hk] using h)]
        simp

lemma mem_dictSet_self (k : String) (v : RetrievedChunk)
    (l : List (String × RetrievedChunk)) : (k, v) ∈ dictSet k v l := by
  induction l with
  | nil => simp [dictSet]
  | cons p rest ih =>
      simp only [dictSet]
      by_cases hk : p.1 = k
      · simp [hk]
      · simp [hk, ih]

lemma mem_dictSet {k : String} {v : RetrievedChunk}
    {l : List (String × RetrievedChunk)} {p : String × RetrievedChunk}
    (hnd : (l.map Prod.fst).Nodup) (h : p ∈ dictSet k v l) :
    p = (k, v) ∨ (p ∈ l ∧ p.1 ≠ k) := by
  induction l with
  | nil =>
      simp only [dictSet, List.mem_singleton] at h
      exact Or.inl h
  | cons q rest ih =>
      simp only [List.map_cons, List.nodup_cons] at hnd
      simp only [dictSet] at h
      by_cases hk : q.1 = k
      · simp only [hk, if_true, List.mem_cons] at h
        rcases h with rfl | hmem
        · exact Or.inl rfl
        · refine Or.inr ⟨List.mem_cons_of_mem _ hmem, ?_⟩
          intro hpk
          exact hnd.1 (hk ▸ hpk ▸ List.mem_map_of_mem Prod.fst hmem)
      · simp only [hk, if_false, List.mem_cons] at h
        rcases h with rfl | hmem
        · exact Or.inr ⟨List.mem_cons_self _ _, hk⟩
        · rcases ih hnd.2 hmem with h1 | ⟨h2, h3⟩
          · exact Or.inl h1
          · exact Or.inr ⟨List.mem_cons_of_mem _ h2, h3⟩

lemma mem_dictSet_of_ne {k : String} {v : RetrievedChunk}
    {l : List (String × RetrievedChunk)} {p : String × RetrievedChunk}
    (h : p ∈ l) (hne : p.1 ≠ k) : p ∈ dictSet k v l := by
  induction l with
  | nil => simp at h
  | cons q rest ih =>
      simp only [dictSet]
      rcases List.mem_cons.mp h with rfl | hmem
      · simp only [hne, if_false]
        exact List.mem_cons_self _ _
      · by_cases hk : q.1 = k
        · simp only [hk, if_true, List.mem_cons]
          exact Or.inr hmem
        · simp only [hk, if_false, List.mem_cons]
          exact Or.inr (ih hmem)

lemma dictFind_mem {k : String} {v : RetrievedChunk}
    {l : List (String × RetrievedChunk)} (h : dictFind k l = some v) : (k, v) ∈ l := by
  induction l with
  | nil => simp [dictFind] at h
  | cons q rest ih =>
      obtain ⟨a, b⟩ := q
      simp only [dictFind] at h
      by_cases hk : a = k
      · subst hk
        simp only [if_true, eq_self_iff_true, if_pos, Option.some_inj] at h
        subst h
        exact List.mem_cons_self _ _
      · simp only [hk, if_false] at h
        exact List.mem_cons_of_mem _ (ih h)

lemma dictFind_of_mem {l : List (String × RetrievedChunk)}
    {p : String × RetrievedChunk} (hnd : (l.map Prod.fst).Nodup) (h : p ∈ l) :
    dictFind p.1 l = some p.2 := by
  induction l with
  | nil => simp at h
  | cons q rest ih =>
      simp only [List.map_cons, List.nodup_cons] at hnd
      rcases List.mem_cons.mp h with rfl | hmem
      · simp [dictFind]
      · have hqp : q.1 ≠ p.1 := by
          intro he
          exact hnd.1 (he ▸ List.mem_map_of_mem Prod.fst hmem)
        simp only [dictFind, hqp, if_false]
        exact ih hnd.2 hmem

lemma map_fst_dictSet_of_find {k : String} {v v0 : RetrievedChunk}
    {l : List (String × RetrievedChunk)} (h : dictFind k l = some v0) :
    (dictSet k v l).map Prod.fst = l.map Prod.fst := by
  induction l with
  | nil => simp [dictFind] at h
  | cons q rest ih =>
      simp only [dictFind] at h
      by_cases hk : q.1 = k
      · simp [dictSet, hk]
      · simp only [hk, if_false] at h
        simp [dictSet, hk, ih h]

/-- Invariant of the dedup loop: after processing the chunk list cs, the
dict has pairwise-distinct keys; each stored chunk comes from cs, is keyed
by its own file path, and dominates every same-file chunk of cs; and every
chunk of cs has its file path among the keys. -/
def SeenInv (cs : List RetrievedChunk) (seen : List (String × RetrievedChunk)) : Prop :=
  (seen.map Prod.fst).Nodup
  ∧ (∀ p ∈ seen, p.2 ∈ cs ∧ p.2.file_path = p.1
      ∧ ∀ c ∈ cs, c.file_path = p.1 → c.relevance_score ≤ p.2.relevance_score)
  ∧ (∀ c ∈ cs, ∃ p ∈ seen, p.1 = c.file_path)

lemma seenStep_inv {done : List RetrievedChunk} {seen : List (String × RetrievedChunk)}
    (c : RetrievedChunk) (h : SeenInv done seen) :
    SeenInv (done ++ [c]) (seenStep seen c) := by
  obtain ⟨hnd, hpairs, hcov⟩ := h
  cases hfind : dictFind c.file_path seen with
  | none =>
      have hnotin : c.file_path ∉ seen.map Prod.fst := dictFind_eq_none hfind
      have hstep : seenStep seen c = dictSet c.file_path c seen := by
        unfold seenStep
        rw [hfind]
      rw [hstep, dictSet_of_find_none hfind]
      refine ⟨?_, ?_, ?_⟩
      · rw [List.map_append]
        refine List.nodup_append.mpr ⟨hnd, List.nodup_singleton _, ?_⟩
        intro a ha hb
        simp only [List.map_cons, List.map_nil, List.mem_singleton] at hb
        exact hnotin (hb ▸ ha)
      · intro p hp
        rcases List.mem_append.mp hp with hp1 | hp2
        · obtain ⟨h1, h2, h3⟩ := hpairs p hp1
          refine ⟨List.mem_append_left _ h1, h2, ?_⟩
          intro d hd hfp
          rcases List.mem_append.mp hd with hd1 | hd2
          · exact h3 d hd1 hfp
          · simp only [List.mem_singleton] at hd2
            subst hd2
            exact absurd (hfp ▸ List.mem_map_of_mem Prod.fst hp1) hnotin
        · simp only [List.mem_singleton] at hp2
          subst hp2
          refine ⟨List.mem_append_right _ (List.mem_singleton_self _), rfl, ?_⟩
          intro d hd hfp
          rcases List.mem_append.mp hd with hd1 | hd2
          · obtain ⟨q, hq, hq1⟩ := hcov d hd1
            have hfp2 : d.file_path = c.file_path := hfp
            have hmem : c.file_path ∈ seen.map Prod.fst := by
              rw [← hfp2, ← hq1]
              exact List.mem_map_of_mem Prod.fst hq
            exact absurd hmem hnotin
          · simp only [List.mem_singleton] at hd2
            subst hd2
            exact le_refl _
      · intro d hd
        rcases List.mem_append.mp hd with hd1 | hd2
        · obtain ⟨q, hq, hq1⟩ := hcov d hd1
          exact ⟨q, List.mem_append_left _ hq, hq1⟩
        · simp only [List.mem_singleton] at hd2
          subst hd2
          exact ⟨(d.file_path, d), List.mem_append_right _ (List.mem_singleton_self _), rfl⟩
  | some prev =>
      have hprevmem : (c.file_path, prev) ∈ seen := dictFind_mem hfind
      obtain ⟨hpdone, hpfp, hpmax⟩ := hpairs _ hprevmem
      have hstep : seenStep seen c
          = if prev.relevance_score < c.relevance_score then
              dictSet c.file_path c seen else seen := by
        unfold seenStep
        rw [hfind]
      rw [hstep]
      by_cases hlt : prev.relevance_score < c.relevance_score
      · rw [if_pos hlt]
        refine ⟨?_, ?_, ?_⟩
        · rw [map_fst_dictSet_of_find hfind]
          exact hnd
        · intro p hp
          rcases mem_dictSet hnd hp with rfl | ⟨hp1, hp2⟩
          · refine ⟨List.mem_append_right _ (List.mem_singleton_self _), rfl, ?_⟩
            intro d hd hfp
            rcases List.mem_append.mp hd with hd1 | hd2
            · exact le_trans (hpmax d hd1 hfp) (le_of_lt hlt)
            · simp only [List.mem_singleton] at hd2
              subst hd2
              exact le_refl _
          · obtain ⟨h1, h2, h3⟩ := hpairs p hp1
            refine ⟨List.mem_append_left _ h1, h2, ?_⟩
            intro d hd hfp
            rcases List.mem_append.mp hd with hd1 | hd2
            · exact h3 d hd1 hfp
            · simp only [List.mem_singleton] at hd2
              subst hd2
              exact absurd hfp.symm hp2
        · intro d hd
          rcases List.mem_append.mp hd with hd1 | hd2
          · obtain ⟨q, hq, hq1⟩ := hcov d hd1
            by_cases hqc : q.1 = c.file_path
            · exact ⟨(c.file_path, c), mem_dictSet_self _ _ _, by rw [← hqc, hq1]⟩
            · exact ⟨q, mem_dictSet_of_ne hq hqc, hq1⟩
          · simp only [List.mem_singleton] at hd2
            subst hd2
            exact ⟨(d.file_path, d), mem_dictSet_self _ _ _, rfl⟩
      · rw [if_neg hlt]
        refine ⟨hnd, ?_, ?_⟩
        · intro p hp
          obtain ⟨h1, h2, h3⟩ := hpairs p hp
          refine ⟨List.mem_append_left _ h1, h2, ?_⟩
          intro d hd hfp
          rcases List.mem_append.mp hd with hd1 | hd2
          · exact h3 d hd1 hfp
          · simp only [List.mem_singleton] at hd2
            subst hd2
            have hfnd : dictFind p.1 seen = some p.2 := dictFind_of_mem hnd hp
            rw [← hfp] at hfnd
            rw [hfind] at hfnd
            have hp2 : p.2 = prev := by
              injection hfnd with he
              exact he.symm
            rw [hp2]
            exact le_of_not_lt hlt
        · intro d hd
          rcases List.mem_append.mp hd with hd1 | hd2
          · exact hcov d hd1
          · simp only [List.mem_singleton] at hd2
            subst hd2
            exact ⟨(d.file_path, prev), hprevmem, rfl⟩

lemma seenInv_foldl (cs : List RetrievedChunk) :
    ∀ (done : List RetrievedChunk) (seen : List (String × RetrievedChunk)),
      SeenInv done seen → SeenInv (done ++ cs) (cs.foldl seenStep seen) := by
  induction cs with
  | nil =>
      intro done seen h
      simpa using h
  | cons c cs ih =>
      intro done seen h
      have h3 := ih (done ++ [c]) (seenStep seen c) (seenStep_inv c h)
      simpa [List.append_assoc] using h3

lemma seenInv_buildSeen (cs : List RetrievedChunk) : SeenInv cs (buildSeen cs) := by
  have h0 : SeenInv [] ([] : List (String × RetrievedChunk)) := by
    refine ⟨List.nodup_nil, ?_, ?_⟩ <;> simp
  simpa using seenInv_foldl cs [] [] h0

lemma mkSource_file_path (c : RetrievedChunk) : (mkSource c).file_path = c.file_path := rfl

lemma mkSource_score (c : RetrievedChunk) : (mkSource c).relevance_score = c.relevance_score := rfl

lemma strTake_length_le (n : Nat) (s : String) : (strTake n s).length ≤ n := by
  show (s.data.take n).length ≤ n
  simp [List.length_take]

lemma formatSources_perm (cs : List RetrievedChunk) :
    (formatSources cs).Perm ((buildSeen cs).map (fun p => mkSource p.2)) :=
  List.perm_insertionSort scoreGE _

lemma formatSources_sorted (cs : List RetrievedChunk) :
    List.Sorted scoreGE (formatSources cs) :=
  List.sorted_insertionSort scoreGE _

lemma save_message_ok {db : Db} {sid : Nat} {role content : String}
    {sel : Option String} {ctx : Option ContextUsed} {db2 : Db} {mid : Nat}
    (h : save_message db sid role content sel ctx = .ok (db2, mid)) :
    db2.messages = db.messages
        ++ [{ message_id := db.nextId, session_id := sid, role := role,
              content := content, selected_text := sel, context_used := ctx,
              created_at := db.clock }]
    ∧ db2.sessions = db.sessions
    ∧ (∃ s ∈ db.sessions, s.session_id = sid)
    ∧ (role = "user" ∨ role = "assistant")
    ∧ (1 ≤ content.length ∧ content.length ≤ 10000) := by
  unfold save_message at h
  by_cases h1 : ¬ (role = "user" ∨ role = "assistant")
  · rw [if_pos h1] at h
    cases h
  · rw [if_neg h1] at h
    by_cases h2 : ¬ (1 ≤ content.length ∧ content.length ≤ 10000)
    · rw [if_pos h2] at h
      cases h
    · rw [if_neg h2] at h
      by_cases h3 : ¬ (∃ s ∈ db.sessions, s.session_id = sid)
      · rw [if_pos h3] at h
        cases h
      · rw [if_neg h3] at h
        rw [Except.ok.injEq, Prod.mk.injEq] at h
        obtain ⟨hdb, _⟩ := h
        subst hdb
        exact ⟨rfl, rfl, not_not.mp h3, not_not.mp h1, not_not.mp h2⟩

lemma resolveSession_messages (db : Db) (session_id : Option Nat) :
    (resolveSession db session_id).1.messages = db.messages := by
  cases session_id <;> rfl

lemma resolveSession_some (db : Db) (sid : Nat) :
    resolveSession db (some sid) = (db, sid) := rfl

/-- The three possible outcomes of the persistence tail of process_query:
the user save fails and nothing is written; the user save commits and the
assistant save fails; or both commit. -/
lemma persistTurn_cases (db : Db) (sid : Nat) (q : String) (sel : Option String)
    (resp : String) (srcs : List Source) (retr : List RetrievedChunk) (calls : Nat) :
    (∃ e, persistTurn db sid q sel resp srcs retr calls
        = { outcome := .error (.storeError e), db := db, retrieved := retr
            llmCalls := calls, savedUser := false, savedAssistant := false })
    ∨ (∃ e db2 mid,
        save_message db sid "user" q sel none = .ok (db2, mid)
        ∧ persistTurn db sid q sel resp srcs retr calls
            = { outcome := .error (.storeError e), db := db2, retrieved := retr
                llmCalls := calls, savedUser := true, savedAssistant := false })
    ∨ (∃ db2 mid db3 mid2,
        save_message db sid "user" q sel none = .ok (db2, mid)
        ∧ save_message db2 sid "assistant" resp none (some (contextSummary retr))
            = .ok (db3, mid2)
        ∧ persistTurn db sid q sel resp srcs retr calls
            = { outcome := .ok (resp, srcs, sid), db := db3, retrieved := retr
                llmCalls := calls, savedUser := true, savedAssistant := true }) := by
  unfold persistTurn
  split
  · rename_i e heq
    exact Or.inl ⟨e, rfl⟩
  · rename_i db2 mid heq
    split
    · rename_i e heq2
      exact Or.inr (Or.inl ⟨e, db2, mid, heq, rfl⟩)
    · rename_i db3 mid2 heq2
      exact Or.inr (Or.inr ⟨db2, mid, db3, mid2, heq, heq2, rfl⟩)

/-- Every run of process_query either fails before persistence, leaving
the messages table untouched, or reaches the persistence tail; an
empty-retrieval run reaches it with the refusal message, empty sources and
zero generator calls, a non-empty one with the generated answer and the
formatted sources. -/
lemma process_query_run (cfg : Settings) (env : Env) (db : Db) (query : String)
    (session_id : Option Nat) (selected_text : Option String) :
    (∃ e retr calls, process_query cfg env db query session_id selected_text
        = { outcome := .error e, db := (resolveSession db session_id).1
            retrieved := retr, llmCalls := calls
            savedUser := false, savedAssistant := false })
    ∨ (∃ resp srcs retr calls,
        process_query cfg env db query session_id selected_text
          = persistTurn (resolveSession db session_id).1 (resolveSession db session_id).2
              query selected_text resp srcs retr calls
        ∧ (retr = [] → resp = refusalMessage ∧ srcs = [] ∧ calls = 0)
        ∧ (retr ≠ [] → srcs = formatSources retr ∧ calls = 1)) := by
  unfold process_query
  dsimp only
  split
  · exact Or.inl ⟨.embeddingError, [], 0, rfl⟩
  · rename_i emb henv
    split
    · exact Or.inl ⟨.vectorStoreError, [], 0, rfl⟩
    · rename_i points hq
      split
      · rename_i hE
        refine Or.inr ⟨refusalMessage, [], vectorSearch points, 0, rfl, ?_, ?_⟩
        · exact fun _ => ⟨rfl, rfl, rfl⟩
        · intro hne
          exact absurd (List.isEmpty_iff.mp hE) hne
      · rename_i hE
        split
        · exact Or.inl ⟨.generationError, vectorSearch points, 1, rfl⟩
        · rename_i resp hg
          refine Or.inr ⟨resp, formatSources (vectorSearch points),
            vectorSearch points, 1, rfl, ?_, fun _ => ⟨rfl, rfl⟩⟩
          intro hnil
          exact absurd (List.isEmpty_iff.mpr hnil) hE

/-- C2: for every non-empty list of retrieved chunks, the Source list
assembled by process_query contains exactly one Source per distinct file
path (pairwise-distinct file paths covering every retrieved file path);
each Source is built from a chunk of the list whose relevance score is
maximal among chunks with that file path; each excerpt is the chunk text
truncated to at most 500 characters; and the final list is sorted by
relevance score descending. -/
theorem C2_source_dedup_ranking (chunks : List RetrievedChunk) (_hne : chunks ≠ []) :
    ((formatSources chunks).map Source.file_path).Nodup
    ∧ (∀ c ∈ chunks, c.file_path ∈ (formatSources chunks).map Source.file_path)
    ∧ (∀ s ∈ formatSources chunks, ∃ c ∈ chunks, s = mkSource c
        ∧ ∀ d ∈ chunks, d.file_path = s.file_path
            → d.relevance_score ≤ s.relevance_score)
    ∧ (∀ s ∈ formatSources chunks, s.excerpt.length ≤ 500)
    ∧ List.Sorted scoreGE (formatSources chunks) := by
  obtain ⟨hnd, hpairs, hcov⟩ := seenInv_buildSeen chunks
  have hperm := formatSources_perm chunks
  have hsub : ∀ s ∈ formatSources chunks, ∃ p ∈ buildSeen chunks, s = mkSource p.2 := by
    intro s hs
    have hs2 := hperm.subset hs
    obtain ⟨p, hp, heq⟩ := List.mem_map.mp hs2
    exact ⟨p, hp, heq.symm⟩
  have hmax : ∀ s ∈ formatSources chunks, ∃ c ∈ chunks, s = mkSource c
      ∧ ∀ d ∈ chunks, d.file_path = s.file_path
          → d.relevance_score ≤ s.relevance_score := by
    intro s hs
    obtain ⟨p, hp, heq⟩ := hsub s hs
    obtain ⟨hmem, hfp, hm⟩ := hpairs p hp
    refine ⟨p.2, hmem, heq, ?_⟩
    intro d hd hdfp
    have hsfp : s.file_path = p.1 := by
      rw [heq, mkSource_file_path, hfp]
    have hss : s.relevance_score = p.2.relevance_score := by
      rw [heq, mkSource_score]
    rw [hss]
    exact hm d hd (by rw [hdfp, hsfp])
  refine ⟨?_, ?_, hmax, ?_, formatSources_sorted chunks⟩
  · have hpm : ((formatSources chunks).map Source.file_path).Perm
        (((buildSeen chunks).map (fun p => mkSource p.2)).map Source.file_path) :=
      hperm.map Source.file_path
    rw [List.map_map] at hpm
    have hkeys : (buildSeen chunks).map (Source.file_path ∘ fun p => mkSource p.2)
        = (buildSeen chunks).map Prod.fst := by
      apply List.map_congr_left
      intro p hp
      show (mkSource p.2).file_path = p.1
      rw [mkSource_file_path]
      exact (hpairs p hp).2.1
    rw [hkeys] at hpm
    exact hpm.nodup_iff.mpr hnd
  · intro c hc
    obtain ⟨p, hp, hfp⟩ := hcov c hc
    refine List.mem_map.mpr ⟨mkSource p.2, ?_, ?_⟩
    · exact hperm.mem_iff.mpr (List.mem_map_of_mem _ hp)
    · rw [mkSource_file_path, (hpairs p hp).2.1, hfp]
  · intro s hs
    obtain ⟨c, _, heq, _⟩ := hmax s hs
    rw [heq]
    exact strTake_length_le 500 c.chunk_text

/-- Scenario chunk: file A scoring 0.81. -/
def chunkA1 : RetrievedChunk :=
  { title := "ROS2 Basics", file_path := "docs/a.md", chunk_text := "alpha one"
    chunk_index := 0, total_chunks := 2, relevance_score := 0.81 }

/-- Scenario chunk: file A again, scoring 0.65. -/
def chunkA2 : RetrievedChunk :=
  { title := "ROS2 Basics", file_path := "docs/a.md", chunk_text := "alpha two"
    chunk_index := 1, total_chunks := 2, relevance_score := 0.65 }

/-- Scenario chunk: file B scoring 0.70. -/
def chunkB : RetrievedChunk :=
  { title := "Sensors", file_path := "docs/b.md", chunk_text := "beta"
    chunk_index := 0, total_chunks := 1, relevance_score := 0.70 }

/-- C2 witness: the dedup, maximality, excerpt and sortedness guarantees
at the concrete three-chunk scenario of the spec (two chunks of file A at
0.81 and 0.65, one of file B at 0.70). -/
theorem C2_source_dedup_ranking_witness :
    (((formatSources [chunkA1, chunkA2, chunkB]).map Source.file_path).Nodup
    ∧ (∀ c ∈ [chunkA1, chunkA2, chunkB],
        c.file_path ∈ (formatSources [chunkA1, chunkA2, chunkB]).map Source.file_path)
    ∧ (∀ s ∈ formatSources [chunkA1, chunkA2, chunkB],
        ∃ c ∈ [chunkA1, chunkA2, chunkB], s = mkSource c
        ∧ ∀ d ∈ [chunkA1, chunkA2, chunkB], d.file_path = s.file_path
            → d.relevance_score ≤ s.relevance_score)
    ∧ (∀ s ∈ formatSources [chunkA1, chunkA2, chunkB], s.excerpt.length ≤ 500)
    ∧ List.Sorted scoreGE (formatSources [chunkA1, chunkA2, chunkB])) :=
  C2_source_dedup_ranking [chunkA1, chunkA2, chunkB] (List.cons_ne_nil _ _)

/-- C7: the single-text embed call requests query-mode encoding
(RETRIEVAL_QUERY), the batch embed call requests document-mode encoding
(RETRIEVAL_DOCUMENT), and the two task-type tags are distinct for any
model and inputs. -/
theorem C7_distinct_encoding_modes (model text : String) (texts : List String) :
    (generate_embedding_request model text).task_type = "RETRIEVAL_QUERY"
    ∧ (generate_embeddings_batch_request model texts).task_type = "RETRIEVAL_DOCUMENT"
    ∧ (generate_embedding_request model text).task_type
        ≠ (generate_embeddings_batch_request model texts).task_type := by
  refine ⟨rfl, rfl, ?_⟩
  show ("RETRIEVAL_QUERY" : String) ≠ "RETRIEVAL_DOCUMENT"
  decide

/-- A database holding one existing session with id 0 and no messages. -/
def dbOne : Db :=
  { sessions := [{ session_id := 0, created_at := 0, last_activity_at := 0 }]
    messages := [], nextId := 1, clock := 1 }

/-- The empty database. -/
def dbEmpty : Db := { sessions := [], messages := [], nextId := 0, clock := 0 }

/-- The settings with all the defaults of src/config.py. -/
def cfgDefault : Settings := {}

/-- C3 counterexample: calling save_message with the invalid role "system"
on an existing session is rejected, but by the database CheckConstraint
chk_valid_role at commit, not by a ValidationError raised from explicit
validation in the storage layer; the write path of conversation.py
performs no validation of its own, diverging from the spec-modelled
contract at this input. -/
theorem C3_counterexample :
    save_message dbOne 0 "system" "hello" none none
        = .error (DbError.checkViolation "chk_valid_role")
    ∧ save_message dbOne 0 "system" "hello" none none
        ≠ .error DbError.validationError
    ∧ save_message dbOne 0 "system" "hello" none none
        ≠ save_message_specContract dbOne 0 "system" "hello" none none := by
  refine ⟨rfl, ?_, ?_⟩
  · intro h
    rw [show save_message dbOne 0 "system" "hello" none none
        = .error (DbError.checkViolation "chk_valid_role") from rfl] at h
    simp at h
  · intro h
    rw [show save_message dbOne 0 "system" "hello" none none
        = .error (DbError.checkViolation "chk_valid_role") from rfl,
      show save_message_specContract dbOne 0 "system" "hello" none none
        = .error DbError.validationError from rfl] at h
    simp at h

/-- C3 amended: for every call to save_message with a role outside
{user, assistant} or a content length outside [1,10000], the call is
rejected with a database CheckConstraint violation, and no row is written
(the call never returns an updated database); the rejection comes from the
declared table constraints enforced at commit, not from explicit
validation code in the Conversation Store write path. -/
theorem C3_constraint_rejection (db : Db) (session_id : Nat) (role content : String)
    (selected_text : Option String) (context_used : Option ContextUsed)
    (h : ¬ (role = "user" ∨ role = "assistant")
        ∨ ¬ (1 ≤ content.length ∧ content.length ≤ 10000)) :
    (∃ c, save_message db session_id role content selected_text context_used
        = .error (DbError.checkViolation c))
    ∧ ∀ r, save_message db session_id role content selected_text context_used
        ≠ .ok r := by
  unfold save_message
  rcases h with h | h
  · rw [if_pos h]
    exact ⟨⟨"chk_valid_role", rfl⟩, fun r h2 => by cases h2⟩
  · by_cases hrole : ¬ (role = "user" ∨ role = "assistant")
    · rw [if_pos hrole]
      exact ⟨⟨"chk_valid_role", rfl⟩, fun r h2 => by cases h2⟩
    · rw [if_neg hrole, if_pos h]
      exact ⟨⟨"chk_content_length", rfl⟩, fun r h2 => by cases h2⟩

/-- C3 witness: the empty content (length 0, outside [1,10000]) is
rejected with a CheckConstraint violation and no row is written. -/
theorem C3_constraint_rejection_witness :
    (∃ c, save_message dbOne 0 "user" "" none none
        = .error (DbError.checkViolation c))
    ∧ ∀ r, save_message dbOne 0 "user" "" none none ≠ .ok r :=
  C3_constraint_rejection dbOne 0 "user" "" none none (Or.inr (by decide))

/-- C5: for every session id, get_conversation_history returns a list
sorted by creation time ascending (non-decreasing) that is a permutation
of exactly the stored messages of that session, and when the session has
no stored messages it returns the empty list (the read is total, it never
raises for a missing session). -/
theorem C5_history_order_total (db : Db) (session_id : Nat) :
    List.Sorted createdLE (get_conversation_history db session_id)
    ∧ (get_conversation_history db session_id).Perm
        (db.messages.filter (fun m => m.session_id == session_id))
    ∧ (db.messages.filter (fun m => m.session_id == session_id) = []
        → get_conversation_history db session_id = []) := by
  unfold get_conversation_history
  refine ⟨List.sorted_insertionSort _ _, List.perm_insertionSort _ _, ?_⟩
  intro h
  rw [h]
  rfl

/-- C5 witness: on the empty database every conjunct holds and the
history of the unknown session 17 is the empty list. -/
theorem C5_history_order_total_witness :
    List.Sorted createdLE (get_conversation_history dbEmpty 17)
    ∧ (get_conversation_history dbEmpty 17).Perm
        (dbEmpty.messages.filter (fun m => m.session_id == 17))
    ∧ get_conversation_history dbEmpty 17 = [] := by
  obtain ⟨h1, h2, h3⟩ := C5_history_order_total dbEmpty 17
  exact ⟨h1, h2, h3 rfl⟩

/-- The default settings with max_conversation_context set to 0. -/
def cfgZeroContext : Settings :=
  { top_k_results := 5, similarity_threshold := 0.6, max_conversation_context := 0 }

/-- A stored user message with content hello. -/
def msgHello : MsgRow :=
  { message_id := 0, session_id := 0, role := "user", content := "hello"
    selected_text := none, context_used := none, created_at := 0 }

/-- C6 counterexample: with max_conversation_context = 0 the prompt should
contain the most recent zero messages, i.e. only the final user turn, but
the Python slice msgs[-0:] is msgs[0:], the whole history, so the one
stored message is still included as a prior turn. -/
theorem C6_counterexample :
    build_conversation_history cfgZeroContext [msgHello] "q" none
        = [GeminiContent.mk "user" "hello", currentTurn "q" none]
    ∧ build_conversation_history cfgZeroContext [msgHello] "q" none
        ≠ [currentTurn "q" none] := by
  constructor
  · rfl
  · intro h
    rw [show build_conversation_history cfgZeroContext [msgHello] "q" none
        = [GeminiContent.mk "user" "hello", currentTurn "q" none] from rfl] at h
    simp at h

/-- C6 amended: provided max_conversation_context is at least 1, the prior
turns of the prompt are exactly the most recent max_conversation_context
messages (all of them when fewer are stored), mapped with role and content
unmodified, and the current query is appended after them as the final user
turn. At max_conversation_context = 0 the code instead includes the whole
history, because the Python slice [-0:] is the full list. -/
theorem C6_history_truncation (cfg : Settings) (conversation_messages : List MsgRow)
    (current_query : String) (selected_text : Option String)
    (h : 1 ≤ cfg.max_conversation_context) :
    build_conversation_history cfg conversation_messages current_query selected_text
      = (conversation_messages.drop
            (conversation_messages.length - cfg.max_conversation_context.toNat)).map
          (fun m => GeminiContent.mk m.role m.content)
        ++ [currentTurn current_query selected_text]
    ∧ (currentTurn current_query selected_text).role = "user" := by
  constructor
  · have hidx : pySliceStart (-cfg.max_conversation_context) conversation_messages.length
        = conversation_messages.length - cfg.max_conversation_context.toNat := by
      unfold pySliceStart
      have hneg : -cfg.max_conversation_context < 0 := by omega
      rw [if_pos hneg]
      omega
    unfold build_conversation_history pyDropSlice
    rw [hidx]
  · cases selected_text <;> rfl

/-- C6 witness: with the default max_conversation_context = 6 and a
one-message history, the prompt is the mapped history suffix followed by
the final user turn. -/
theorem C6_history_truncation_witness :
    build_conversation_history cfgDefault [msgHello] "q" none
      = ([msgHello].drop
            ([msgHello].length - cfgDefault.max_conversation_context.toNat)).map
          (fun m => GeminiContent.mk m.role m.content)
        ++ [currentTurn "q" none]
    ∧ (currentTurn "q" none).role = "user" :=
  C6_history_truncation cfgDefault [msgHello] "q" none (by decide)

/-- When every retrieved chunk carries the same file path, the dedup loop
keeps exactly one entry, so exactly one Source is emitted. -/
lemma formatSources_length_one {chunks : List RetrievedChunk} {fp : String}
    (hne : chunks ≠ []) (hall : ∀ c ∈ chunks, c.file_path = fp) :
    (formatSources chunks).length = 1 := by
  obtain ⟨hnd, hpairs, hcov⟩ := seenInv_buildSeen chunks
  have hlen : (formatSources chunks).length = (buildSeen chunks).length := by
    rw [(formatSources_perm chunks).length_eq, List.length_map]
  have hkeys : ∀ p ∈ buildSeen chunks, p.1 = fp := by
    intro p hp
    obtain ⟨h1, h2, _⟩ := hpairs p hp
    rw [← h2]
    exact hall p.2 h1
  rw [hlen]
  cases hb : buildSeen chunks with
  | nil =>
      obtain ⟨c, hc⟩ := List.exists_mem_of_ne_nil chunks hne
      obtain ⟨p, hp, _⟩ := hcov c hc
      rw [hb] at hp
      simp at hp
  | cons p rest =>
      cases rest with
      | nil => rfl
      | cons q rest2 =>
          rw [hb] at hnd hkeys
          have hp1 : p.1 = fp := hkeys p (List.mem_cons_self _ _)
          have hq1 : q.1 = fp := hkeys q (List.mem_cons_of_mem _ (List.mem_cons_self _ _))
          simp only [List.map_cons, List.nodup_cons, List.mem_cons, List.mem_map] at hnd
          exact absurd (Or.inl (hp1.trans hq1.symm)) hnd.1

/-- C10: for every list of search hits, search never fails on a point with
missing payload fields: each expected field that is absent is substituted
by its default (title Untitled, file_path empty, chunk_text empty,
chunk_index 0, total_chunks 1) and every hit yields a well-formed chunk
(one chunk per hit, score carried over); and whenever the hits all lack a
file path, they share the empty-string file path and are collapsed into a
single Source by the downstream deduplication. -/
theorem C10_missing_payload_defaults (points : List ScoredPoint) :
    (∀ p ∈ points,
        (p.payload.title = none → (pointToChunk p).title = "Untitled")
        ∧ (p.payload.file_path = none → (pointToChunk p).file_path = "")
        ∧ (p.payload.chunk_text = none → (pointToChunk p).chunk_text = "")
        ∧ (p.payload.chunk_index = none → (pointToChunk p).chunk_index = 0)
        ∧ (p.payload.total_chunks = none → (pointToChunk p).total_chunks = 1)
        ∧ (pointToChunk p).relevance_score = p.score)
    ∧ (vectorSearch points).length = points.length
    ∧ (points ≠ [] → (∀ p ∈ points, p.payload.file_path = none)
        → (formatSources (vectorSearch points)).length = 1) := by
  refine ⟨?_, List.length_map _ _, ?_⟩
  · intro p _
    refine ⟨?_, ?_, ?_, ?_, ?_, rfl⟩
    · intro h
      show p.payload.title.getD "Untitled" = "Untitled"
      rw [h]
      rfl
    · intro h
      show p.payload.file_path.getD "" = ""
      rw [h]
      rfl
    · intro h
      show p.payload.chunk_text.getD "" = ""
      rw [h]
      rfl
    · intro h
      show p.payload.chunk_index.getD 0 = 0
      rw [h]
      rfl
    · intro h
      show p.payload.total_chunks.getD 1 = 1
      rw [h]
      rfl
  · intro hne hfp
    have hvne : vectorSearch points ≠ [] := by
      intro h
      unfold vectorSearch at h
      exact hne (List.map_eq_nil_iff.mp h)
    have hall : ∀ c ∈ vectorSearch points, c.file_path = "" := by
      intro c hc
      obtain ⟨p, hp, rfl⟩ := List.mem_map.mp hc
      show p.payload.file_path.getD "" = ""
      rw [hfp p hp]
      rfl
    exact formatSources_length_one hvne hall

/-- A search hit whose payload is entirely missing, scoring 0.9. -/
def pointBareA : ScoredPoint :=
  { payload := { title := none, file_path := none, chunk_text := none
                 chunk_index := none, total_chunks := none }
    score := 0.9 }

/-- A search hit whose payload is entirely missing, scoring 0.5. -/
def pointBareB : ScoredPoint :=
  { payload := { title := none, file_path := none, chunk_text := none
                 chunk_index := none, total_chunks := none }
    score := 0.5 }

/-- A search hit carrying a file path but missing its title, scoring
0.7. -/
def pointMixed : ScoredPoint :=
  { payload := { title := none, file_path := some "docs/x.md"
                 chunk_text := some "body", chunk_index := some 0
                 total_chunks := some 1 }
    score := 0.7 }

/-- C10 witness: two payload-less hits both get the defaults and collapse
into a single Source, and a hit that carries a file path but lacks only
its title gets the Untitled default too. -/
theorem C10_missing_payload_defaults_witness :
    ((∀ p ∈ [pointBareA, pointBareB],
        (p.payload.title = none → (pointToChunk p).title = "Untitled")
        ∧ (p.payload.file_path = none → (pointToChunk p).file_path = "")
        ∧ (p.payload.chunk_text = none → (pointToChunk p).chunk_text = "")
        ∧ (p.payload.chunk_index = none → (pointToChunk p).chunk_index = 0)
        ∧ (p.payload.total_chunks = none → (pointToChunk p).total_chunks = 1)
        ∧ (pointToChunk p).relevance_score = p.score)
    ∧ (vectorSearch [pointBareA, pointBareB]).length = [pointBareA, pointBareB].length
    ∧ (formatSources (vectorSearch [pointBareA, pointBareB])).length = 1)
    ∧ (∀ p ∈ [pointMixed],
        (p.payload.title = none → (pointToChunk p).title = "Untitled")
        ∧ (p.payload.file_path = none → (pointToChunk p).file_path = "")
        ∧ (p.payload.chunk_text = none → (pointToChunk p).chunk_text = "")
        ∧ (p.payload.chunk_index = none → (pointToChunk p).chunk_index = 0)
        ∧ (p.payload.total_chunks = none → (pointToChunk p).total_chunks = 1)
        ∧ (pointToChunk p).relevance_score = p.score) :=
  ⟨⟨(C10_missing_payload_defaults [pointBareA, pointBareB]).1,
    (C10_missing_payload_defaults [pointBareA, pointBareB]).2.1,
    (C10_missing_payload_defaults [pointBareA, pointBareB]).2.2
      (List.cons_ne_nil _ _) (by intro p hp; fin_cases hp <;> rfl)⟩,
   (C10_missing_payload_defaults [pointMixed]).1⟩

lemma persistTurn_llmCalls (db : Db) (sid : Nat) (q : String) (sel : Option String)
    (resp : String) (srcs : List Source) (retr : List RetrievedChunk) (calls : Nat) :
    (persistTurn db sid q sel resp srcs retr calls).llmCalls = calls := by
  rcases persistTurn_cases db sid q sel resp srcs retr calls with
    ⟨e, hr⟩ | ⟨e, db2, mid, hu, hr⟩ | ⟨db2, mid, db3, mid2, hu, ha, hr⟩ <;> rw [hr]

lemma persistTurn_retrieved (db : Db) (sid : Nat) (q : String) (sel : Option String)
    (resp : String) (srcs : List Source) (retr : List RetrievedChunk) (calls : Nat) :
    (persistTurn db sid q sel resp srcs retr calls).retrieved = retr := by
  rcases persistTurn_cases db sid q sel resp srcs retr calls with
    ⟨e, hr⟩ | ⟨e, db2, mid, hu, hr⟩ | ⟨db2, mid, db3, mid2, hu, ha, hr⟩ <;> rw [hr]

lemma persistTurn_sessions (db : Db) (sid : Nat) (q : String) (sel : Option String)
    (resp : String) (srcs : List Source) (retr : List RetrievedChunk) (calls : Nat) :
    (persistTurn db sid q sel resp srcs retr calls).db.sessions = db.sessions := by
  rcases persistTurn_cases db sid q sel resp srcs retr calls with
    ⟨e, hr⟩ | ⟨e, db2, mid, hu, hr⟩ | ⟨db2, mid, db3, mid2, hu, ha, hr⟩ <;> rw [hr]
  · show db2.sessions = db.sessions
    exact (save_message_ok hu).2.1
  · show db3.sessions = db.sessions
    rw [(save_message_ok ha).2.1, (save_message_ok hu).2.1]

lemma persistTurn_success {db : Db} {sid : Nat} {q : String} {sel : Option String}
    {resp : String} {srcs : List Source} {retr : List RetrievedChunk} {calls : Nat}
    {ans : String} {srcs2 : List Source} {sid2 : Nat}
    (h : (persistTurn db sid q sel resp srcs retr calls).outcome = .ok (ans, srcs2, sid2)) :
    ans = resp ∧ srcs2 = srcs ∧ sid2 = sid
    ∧ ∃ u a : MsgRow,
        (persistTurn db sid q sel resp srcs retr calls).db.messages
            = db.messages ++ [u, a]
        ∧ u.role = "user" ∧ u.content = q ∧ u.selected_text = sel
        ∧ u.context_used = none
        ∧ a.role = "assistant" ∧ a.content = resp ∧ a.selected_text = none
        ∧ a.context_used = some (contextSummary retr) := by
  rcases persistTurn_cases db sid q sel resp srcs retr calls with
    ⟨e, hr⟩ | ⟨e, db2, mid, hu, hr⟩ | ⟨db2, mid, db3, mid2, hu, ha, hr⟩
  · rw [hr] at h
    simp at h
  · rw [hr] at h
    simp at h
  · rw [hr] at h ⊢
    have h2 : (Except.ok (resp, srcs, sid)
        : Except PipelineError (String × List Source × Nat))
        = .ok (ans, srcs2, sid2) := h
    simp only [Except.ok.injEq, Prod.mk.injEq] at h2
    obtain ⟨he1, he2, he3⟩ := h2
    obtain ⟨hm2, _, _, _, _⟩ := save_message_ok hu
    obtain ⟨hm3, _, _, _, _⟩ := save_message_ok ha
    refine ⟨he1.symm, he2.symm, he3.symm,
      { message_id := db.nextId, session_id := sid, role := "user", content := q
        selected_text := sel, context_used := none, created_at := db.clock },
      { message_id := db2.nextId, session_id := sid, role := "assistant"
        content := resp, selected_text := none
        context_used := some (contextSummary retr), created_at := db2.clock },
      ?_, rfl, rfl, rfl, rfl, rfl, rfl, rfl, rfl⟩
    show db3.messages = db.messages ++ _
    rw [hm3, hm2, List.append_assoc]
    rfl

/-- C1: whenever the vector search step returns zero chunks at or above
the similarity threshold, the Answer Generator is never invoked, and if
the run returns then its answer is the fixed refusal string and its
sources are the empty list. -/
theorem C1_empty_retrieval_refusal (cfg : Settings) (env : Env) (db : Db)
    (query : String) (session_id : Option Nat) (selected_text : Option String)
    (emb : List ℚ)
    (h1 : env.embed query = some emb)
    (h2 : env.qdrant_search emb cfg.top_k_results cfg.similarity_threshold = some []) :
    (process_query cfg env db query session_id selected_text).llmCalls = 0
    ∧ ∀ ans srcs sid,
        (process_query cfg env db query session_id selected_text).outcome
            = .ok (ans, srcs, sid)
        → ans = refusalMessage ∧ srcs = [] := by
  have hred : process_query cfg env db query session_id selected_text
      = persistTurn (resolveSession db session_id).1 (resolveSession db session_id).2
          query selected_text refusalMessage [] [] 0 := by
    unfold process_query
    dsimp only
    rw [h1]
    dsimp only
    rw [h2]
    simp only [vectorSearch, List.map_nil, List.isEmpty_nil, eq_self_iff_true, if_true]
  rw [hred]
  constructor
  · exact persistTurn_llmCalls _ _ _ _ _ _ _ _
  · intro ans srcs sid h
    obtain ⟨ha1, ha2, _⟩ := persistTurn_success h
    exact ⟨ha1, ha2⟩

/-- The environment whose vector search returns no hits. -/
def envNoHits : Env :=
  { embed := fun _ => some []
    qdrant_search := fun _ _ _ => some []
    generate := fun _ _ _ _ => some "generated" }

/-- C1 witness: a concrete run with zero hits makes no generator call,
and its successful return carries the refusal message and no sources. -/
theorem C1_empty_retrieval_refusal_witness :
    (process_query cfgDefault envNoHits dbEmpty "hi" none none).llmCalls = 0
    ∧ ∀ ans srcs sid,
        (process_query cfgDefault envNoHits dbEmpty "hi" none none).outcome
            = .ok (ans, srcs, sid)
        → ans = refusalMessage ∧ srcs = [] :=
  C1_empty_retrieval_refusal cfgDefault envNoHits dbEmpty "hi" none none [] rfl rfl

/-- C4: every successful process_query run appends exactly two messages to
the store, first the user message (content = query, carrying the selected
text), then the assistant message (content = the returned answer), on the
refusal branch and the generation branch alike; the assistant message
context_used payload is the summary of every retrieved chunk (title, file
path, relevance score) plus the retrieval count, hence the zero-chunk
summary on the refusal branch. -/
theorem C4_exactly_two_messages (cfg : Settings) (env : Env) (db : Db) (query : String)
    (session_id : Option Nat) (selected_text : Option String)
    (ans : String) (srcs : List Source) (sid : Nat)
    (h : (process_query cfg env db query session_id selected_text).outcome
        = .ok (ans, srcs, sid)) :
    ∃ u a : MsgRow,
      (process_query cfg env db query session_id selected_text).db.messages
          = db.messages ++ [u, a]
      ∧ u.role = "user" ∧ u.content = query ∧ u.selected_text = selected_text
      ∧ u.context_used = none
      ∧ a.role = "assistant" ∧ a.content = ans ∧ a.selected_text = none
      ∧ a.context_used = some (contextSummary
          (process_query cfg env db query session_id selected_text).retrieved)
      ∧ (contextSummary
            (process_query cfg env db query session_id selected_text).retrieved).chunks
          = (process_query cfg env db query session_id selected_text).retrieved.map
              (fun c => ChunkMeta.mk c.title c.file_path c.relevance_score)
      ∧ (contextSummary
            (process_query cfg env db query session_id selected_text).retrieved).retrieval_count
          = (process_query cfg env db query session_id selected_text).retrieved.length
      ∧ ((process_query cfg env db query session_id selected_text).retrieved = []
          → a.context_used = some { chunks := [], retrieval_count := 0 }) := by
  rcases process_query_run cfg env db query session_id selected_text with
    ⟨e, retr, calls, hr⟩ | ⟨resp, srcs0, retr, calls, hr, _, _⟩
  · rw [hr] at h
    simp at h
  · rw [hr] at h ⊢
    rw [persistTurn_retrieved]
    obtain ⟨ha1, _, _, u, a, hmsg, hu1, hu2, hu3, hu4, ha4, ha5, ha6, ha7⟩ :=
      persistTurn_success h
    refine ⟨u, a, ?_, hu1, hu2, hu3, hu4, ha4, ?_, ha6, ha7, rfl, rfl, ?_⟩
    · rw [hmsg, resolveSession_messages]
    · rw [ha5, ha1]
    · intro hnil
      rw [ha7, hnil]
      rfl

set_option maxRecDepth 8000 in
/-- C4 witness: the concrete zero-hit run succeeds and appends exactly the
user and assistant rows with the zero-chunk context summary. -/
theorem C4_exactly_two_messages_witness :
    ∃ u a : MsgRow,
      (process_query cfgDefault envNoHits dbEmpty "hi" none none).db.messages
          = dbEmpty.messages ++ [u, a]
      ∧ u.role = "user" ∧ u.content = "hi" ∧ u.selected_text = none
      ∧ u.context_used = none
      ∧ a.role = "assistant" ∧ a.content = refusalMessage ∧ a.selected_text = none
      ∧ a.context_used = some (contextSummary
          (process_query cfgDefault envNoHits dbEmpty "hi" none none).retrieved)
      ∧ (contextSummary
            (process_query cfgDefault envNoHits dbEmpty "hi" none none).retrieved).chunks
          = (process_query cfgDefault envNoHits dbEmpty "hi" none none).retrieved.map
              (fun c => ChunkMeta.mk c.title c.file_path c.relevance_score)
      ∧ (contextSummary
            (process_query cfgDefault envNoHits dbEmpty "hi" none none).retrieved).retrieval_count
          = (process_query cfgDefault envNoHits dbEmpty "hi" none none).retrieved.length
      ∧ ((process_query cfgDefault envNoHits dbEmpty "hi" none none).retrieved = []
          → a.context_used = some { chunks := [], retrieval_count := 0 }) :=
  C4_exactly_two_messages cfgDefault envNoHits dbEmpty "hi" none none
    refusalMessage [] 0 rfl

/-- C8: when the user-message save commits and the assistant-message save
fails, the query aborts with an error and the already-persisted user
message remains in the store with no compensating rollback; and when the
user save did not commit (any earlier pipeline failure included), no
message at all is persisted. -/
theorem C8_at_least_once_user_message (cfg : Settings) (env : Env) (db : Db)
    (query : String) (session_id : Option Nat) (selected_text : Option String)
    (r : RunResult)
    (hr : r = process_query cfg env db query session_id selected_text) :
    (r.savedUser = true → r.savedAssistant = false →
        (∃ e, r.outcome = .error e)
        ∧ ∃ u : MsgRow, r.db.messages = db.messages ++ [u]
            ∧ u.role = "user" ∧ u.content = query ∧ u.selected_text = selected_text
            ∧ u.context_used = none)
    ∧ (r.savedUser = false → r.db.messages = db.messages) := by
  subst hr
  rcases process_query_run cfg env db query session_id selected_text with
    ⟨e, retr, calls, hq⟩ | ⟨resp, srcs0, retr, calls, hq, _, _⟩
  · rw [hq]
    constructor
    · intro h1
      simp at h1
    · intro _
      exact resolveSession_messages db session_id
  · rw [hq]
    rcases persistTurn_cases (resolveSession db session_id).1
        (resolveSession db session_id).2 query selected_text resp srcs0 retr calls with
      ⟨e, hp⟩ | ⟨e, db2, mid, hu, hp⟩ | ⟨db2, mid, db3, mid2, hu, ha, hp⟩ <;> rw [hp]
    · constructor
      · intro h1
        simp at h1
      · intro _
        exact resolveSession_messages db session_id
    · constructor
      · intro _ _
        obtain ⟨hm2, _, _, _, _⟩ := save_message_ok hu
        refine ⟨⟨.storeError e, rfl⟩,
          { message_id := (resolveSession db session_id).1.nextId
            session_id := (resolveSession db session_id).2
            role := "user", content := query, selected_text := selected_text
            context_used := none
            created_at := (resolveSession db session_id).1.clock },
          ?_, rfl, rfl, rfl, rfl⟩
        show db2.messages = db.messages ++ _
        rw [hm2, resolveSession_messages]
      · intro h1
        simp at h1
    · constructor
      · intro _ h2
        simp at h2
      · intro h1
        simp at h1

/-- The environment with one search hit and a generator that returns the
empty string, which the assistant-save content length constraint then
rejects. -/
def envEmptyAnswer : Env :=
  { embed := fun _ => some []
    qdrant_search := fun _ _ _ => some
      [{ payload := { title := some "T", file_path := some "docs/t.md"
                      chunk_text := some "text", chunk_index := some 0
                      total_chunks := some 1 }
         score := 0.9 }]
    generate := fun _ _ _ _ => some "" }

/-- C8 witness: in the concrete run where the generator returns an empty
answer, the user save commits, the assistant save fails, the query aborts
with an error and exactly the user message remains persisted. -/
theorem C8_at_least_once_user_message_witness :
    (∃ e, (process_query cfgDefault envEmptyAnswer dbEmpty "hi" none none).outcome
        = .error e)
    ∧ ∃ u : MsgRow,
        (process_query cfgDefault envEmptyAnswer dbEmpty "hi" none none).db.messages
            = dbEmpty.messages ++ [u]
        ∧ u.role = "user" ∧ u.content = "hi" ∧ u.selected_text = none
        ∧ u.context_used = none :=
  (C8_at_least_once_user_message cfgDefault envEmptyAnswer dbEmpty "hi" none none
    (process_query cfgDefault envEmptyAnswer dbEmpty "hi" none none) rfl).1 rfl rfl

/-- C9: a committed message write leaves the sessions table unchanged and
presupposes that the referenced session already exists (the foreign key
rejects it otherwise), and it preserves the invariant that every stored
message references an existing session; process_query with a supplied
session id never creates a session (the id is used verbatim, with no
existence check at resolution time); and a session id absent from the
sessions table yields an empty history read, not an error. -/
theorem C9_no_orphan_sessions :
    (∀ (db : Db) (sid : Nat) (role content : String) (sel : Option String)
        (ctx : Option ContextUsed) (db2 : Db) (mid : Nat),
        save_message db sid role content sel ctx = .ok (db2, mid) →
          db2.sessions = db.sessions
          ∧ (∃ s ∈ db.sessions, s.session_id = sid)
          ∧ ((∀ m ∈ db.messages, ∃ s ∈ db.sessions, s.session_id = m.session_id) →
              ∀ m ∈ db2.messages, ∃ s ∈ db2.sessions, s.session_id = m.session_id))
    ∧ (∀ (cfg : Settings) (env : Env) (db : Db) (query : String) (sid : Nat)
        (sel : Option String),
        (process_query cfg env db query (some sid) sel).db.sessions = db.sessions)
    ∧ (∀ (db : Db) (sid : Nat),
        (∀ m ∈ db.messages, ∃ s ∈ db.sessions, s.session_id = m.session_id) →
        (∀ s ∈ db.sessions, s.session_id ≠ sid) →
        get_conversation_history db sid = []) := by
  refine ⟨?_, ?_, ?_⟩
  · intro db sid role content sel ctx db2 mid h
    obtain ⟨hm, hs, hfk, _, _⟩ := save_message_ok h
    refine ⟨hs, hfk, ?_⟩
    intro hwf m hmem
    rw [hm] at hmem
    rcases List.mem_append.mp hmem with h1 | h2
    · obtain ⟨s, hs2, hs3⟩ := hwf m h1
      refine ⟨s, ?_, hs3⟩
      rw [hs]
      exact hs2
    · simp only [List.mem_singleton] at h2
      subst h2
      obtain ⟨s, hs2, hs3⟩ := hfk
      refine ⟨s, ?_, hs3⟩
      rw [hs]
      exact hs2
  · intro cfg env db query sid sel
    rcases process_query_run cfg env db query (some sid) sel with
      ⟨e, retr, calls, hq⟩ | ⟨resp, srcs0, retr, calls, hq, _, _⟩
    · rw [hq]
      rfl
    · rw [hq, persistTurn_sessions]
      rfl
  · intro db sid hwf hno
    unfold get_conversation_history
    have hfil : db.messages.filter (fun m => m.session_id == sid) = [] := by
      rw [List.filter_eq_nil_iff]
      intro m hm
      simp only [beq_iff_eq]
      intro he
      obtain ⟨s, hs1, hs2⟩ := hwf m hm
      exact hno s hs1 (hs2.trans he)
    rw [hfil]
    rfl

/-- The database state after saving one user message hi to session 0 of
dbOne. -/
def dbOneSaved : Db :=
  { sessions := [{ session_id := 0, created_at := 0, last_activity_at := 0 }]
    messages := [{ message_id := 1, session_id := 0, role := "user", content := "hi"
                   selected_text := none, context_used := none, created_at := 1 }]
    nextId := 2, clock := 2 }

/-- C9 witness: the concrete committed save leaves the session table
unchanged, the referenced session exists, every stored message references
an existing session, a run with a supplied session id creates no session,
and the history of an unknown session is empty. -/
theorem C9_no_orphan_sessions_witness :
    (dbOneSaved.sessions = dbOne.sessions
      ∧ (∃ s ∈ dbOne.sessions, s.session_id = 0)
      ∧ (∀ m ∈ dbOneSaved.messages, ∃ s ∈ dbOneSaved.sessions,
            s.session_id = m.session_id))
    ∧ (process_query cfgDefault envNoHits dbOne "hi" (some 0) none).db.sessions
        = dbOne.sessions
    ∧ get_conversation_history dbEmpty 5 = [] := by
  obtain ⟨h1, h2, h3⟩ := C9_no_orphan_sessions
  have ha := h1 dbOne 0 "user" "hi" none none dbOneSaved 1 rfl
  refine ⟨⟨ha.1, ha.2.1, ha.2.2 ?_⟩, h2 cfgDefault envNoHits dbOne "hi" 0 none,
    h3 dbEmpty 5 ?_ ?_⟩
  · intro m hm
    simp [dbOne] at hm
  · intro m hm
    simp [dbEmpty] at hm
  · intro s hs
    simp [dbEmpty] at hs

end RAG
